import Mathlib

/-!
Shallow embedding of the spemath expression-language front end
(lexer `src/lexer/tokenizer.rs`, parser `src/parser/pratt.rs`,
evaluator `src/interpreter/eval.rs`, entry point `src/core/runtime.rs`).

Conventions of the embedding:
* Rust `f64` payloads are modelled exactly by `F64`, an (unnormalized)
  fraction of integers with the exact rational operations; the only
  arithmetic the claims exercise is exact, and `f64::powf` (used only for
  `^`) is modelled by an explicit function parameter `powf` threaded
  through the evaluator.
* Rust `usize` is `Nat`, `String` is `String`, `Vec`/iterators are `List`.
* The `HashMap<String, Value>` environment is modelled as an association
  list with unique keys; `set` overwrites in place or appends ("last write
  wins"), `get` is exact-string lookup, and `clone` is the identity, which
  matches the map semantics (iteration order is never observed).
* Loops whose termination Lean cannot see structurally take an explicit
  fuel argument (`Nat`); results are wrapped so fuel exhaustion is a
  distinguished outcome, never a silently wrong answer.  Rust itself has
  no such bound; every claim is either stated for all sufficient fuel or
  evaluated at a concrete fuel that completes.
* Debug (`{:?}`) and Display formatting of tokens, expressions and values
  is reproduced textually, with the float-to-decimal rendering abstracted
  by `reprQ` (claims never depend on float digit strings).
-/

/-- Source location carried by every token (Rust `Span { line, col, pos }`). -/
structure Span where
  line : Nat
  col : Nat
  pos : Nat
deriving DecidableEq, Repr

/-- Model of Rust `f64`: an exact (not necessarily reduced) fraction.  The
claims never depend on floating-point rounding, infinities or NaN; the
arithmetic the pipeline performs on the inputs in play is exact, and a
zero denominator plays the role of the IEEE non-finite results of division
by zero. -/
structure F64 where
  num : Int
  den : Int
deriving DecidableEq, Repr

instance (n : Nat) : OfNat F64 n := ⟨⟨(n : Int), 1⟩⟩

/-- Exact rational addition (Rust `f64` `+`). -/
def F64.add (a b : F64) : F64 := ⟨a.num * b.den + b.num * a.den, a.den * b.den⟩

/-- Exact rational subtraction (Rust `f64` `-`). -/
def F64.sub (a b : F64) : F64 := ⟨a.num * b.den - b.num * a.den, a.den * b.den⟩

/-- Exact rational multiplication (Rust `f64` `*`). -/
def F64.mul (a b : F64) : F64 := ⟨a.num * b.num, a.den * b.den⟩

/-- Exact rational division (Rust `f64` `/`; division by zero produces a
zero denominator, the model's stand-in for the IEEE non-finite results). -/
def F64.div (a b : F64) : F64 := ⟨a.num * b.den, a.den * b.num⟩

/-- Negation (Rust unary `-` on `f64`). -/
def F64.neg (a : F64) : F64 := ⟨-a.num, a.den⟩

instance : Add F64 := ⟨F64.add⟩
instance : Sub F64 := ⟨F64.sub⟩
instance : Mul F64 := ⟨F64.mul⟩
instance : Div F64 := ⟨F64.div⟩
instance : Neg F64 := ⟨F64.neg⟩

/-- Rust `Token` from `src/lexer/token.rs`, with the `f64` payload as `F64`. -/
inductive Token where
  | number (n : F64)
  | identifier (name : String)
  | plus
  | minus
  | star
  | slash
  | percent
  | caret
  | lparen
  | rparen
  | lbrace
  | rbrace
  | lbracket
  | rbracket
  | comma
  | equal
  | equalEqual
  | less
  | greater
  | lessEqual
  | greaterEqual
  | exclamation
  | exclamationEqual
  | semicolon
  | newline
  | whitespace
  | eof
deriving DecidableEq, Repr

/-- Rust `Spanned<Token>` (`SpannedToken`). -/
structure SpannedToken where
  value : Token
  span : Span
deriving DecidableEq, Repr

/-- Abbreviation mirroring `Token::span`. -/
def Token.withSpan (t : Token) (line col pos : Nat) : SpannedToken :=
  ⟨t, ⟨line, col, pos⟩⟩

/-- Rendering of an `F64` standing in for an `f64`; abstracts Rust float
formatting (`2.0` for integral values).  No claim depends on these digits. -/
def reprQ (q : F64) : String :=
  if q.den = 1 then toString q.num ++ ".0"
  else toString q.num ++ "/" ++ toString q.den

/-- Rust `Display for Token` (`src/lexer/token.rs`). -/
def Token.display : Token → String
  | .number n => reprQ n
  | .identifier s => s
  | .plus => "+"
  | .minus => "-"
  | .star => "*"
  | .slash => "/"
  | .percent => "%"
  | .caret => "^"
  | .lparen => "("
  | .rparen => ")"
  | .lbrace => "\x7b"
  | .rbrace => "\x7d"
  | .lbracket => "["
  | .rbracket => "]"
  | .comma => ","
  | .equal => "="
  | .equalEqual => "=="
  | .less => "<"
  | .greater => ">"
  | .lessEqual => "<="
  | .greaterEqual => ">="
  | .exclamation => "!"
  | .exclamationEqual => "!="
  | .semicolon => ";"
  | .newline => "\\n"
  | .whitespace => " "
  | .eof => "end of file"

/-- Rust `Token::description`. -/
def Token.description : Token → String
  | .number _ => "number"
  | .identifier _ => "identifier"
  | .eof => "end of input"
  | .newline => "newline"
  | .whitespace => "whitespace"
  | t => t.display

/-- Rust `LexerError` (`src/lexer/error.rs`). -/
inductive LexerError where
  | unexpectedCharacter (c : Char) (line col : Nat)
  | invalidNumberFormat (literal : String) (line col : Nat)
deriving DecidableEq, Repr

/-- Rust `Display for LexerError` (via `thiserror`). -/
def LexerError.display : LexerError → String
  | .unexpectedCharacter c line col =>
      "Unexpected character \x27" ++ String.singleton c ++ "\x27 at line " ++
        toString line ++ ", column " ++ toString col
  | .invalidNumberFormat lit line col =>
      "Invalid number format \x27" ++ lit ++ "\x27 at line " ++
        toString line ++ ", column " ++ toString col

/-- Rust `char::is_whitespace` (Unicode White_Space property). -/
def rustIsWhitespace (c : Char) : Bool :=
  c.val = 0x09 || c.val = 0x0A || c.val = 0x0B || c.val = 0x0C || c.val = 0x0D ||
  c.val = 0x20 || c.val = 0x85 || c.val = 0xA0 || c.val = 0x1680 ||
  (0x2000 ≤ c.val && c.val ≤ 0x200A) || c.val = 0x2028 || c.val = 0x2029 ||
  c.val = 0x202F || c.val = 0x205F || c.val = 0x3000

/-- Rust `char::is_alphanumeric`, restricted to the ASCII range the sources
and claims exercise. -/
def rustIsAlphanumeric (c : Char) : Bool :=
  ('a' ≤ c && c ≤ 'z') || ('A' ≤ c && c ≤ 'Z') || ('0' ≤ c && c ≤ '9')

/-- One `Lexer::advance` step over position bookkeeping: given the character
being consumed, produce the next (line, col); `pos` always increments. -/
def lexStep (c : Char) (line col : Nat) : Nat × Nat :=
  if c = '\n' then (line + 1, 1) else (line, col + 1)

/-- Rust `Lexer::whitespace`: consume a maximal run of whitespace characters,
pushing a `Newline` token for each `'\n'`, a `Whitespace` token for each
space or tab, and silently skipping any other whitespace character.
Returns (remaining input, line, col, pos, tokens so far). -/
def lexWhitespace : List Char → Nat → Nat → Nat → List SpannedToken →
    List Char × Nat × Nat × Nat × List SpannedToken
  | [], line, col, pos, toks => ([], line, col, pos, toks)
  | c :: rest, line, col, pos, toks =>
      if rustIsWhitespace c then
        if c = '\n' then
          lexWhitespace rest (line + 1) 1 (pos + 1) (toks ++ [Token.newline.withSpan line col pos])
        else if c = ' ' || c = '\t' then
          lexWhitespace rest line (col + 1) (pos + 1) (toks ++ [Token.whitespace.withSpan line col pos])
        else
          let (line2, col2) := lexStep c line col
          lexWhitespace rest line2 col2 (pos + 1) toks
      else (c :: rest, line, col, pos, toks)

/-- Rust `Lexer::identifier`: consume alphanumeric/underscore characters. -/
def lexIdent : List Char → Nat → Nat → Nat → List Char →
    List Char × Nat × Nat × Nat × List Char
  | [], line, col, pos, acc => ([], line, col, pos, acc)
  | c :: rest, line, col, pos, acc =>
      if rustIsAlphanumeric c || c = '_' then
        lexIdent rest line (col + 1) (pos + 1) (acc ++ [c])
      else (c :: rest, line, col, pos, acc)

/-- The greedy malformed-number tail inside `Lexer::number`: after a second
decimal point, consume every following digit, `.`, `e`, `E`, `+` or `-`. -/
def lexNumTail : List Char → Nat → Nat → Nat → List Char →
    List Char × Nat × Nat × Nat × List Char
  | [], line, col, pos, acc => ([], line, col, pos, acc)
  | c :: rest, line, col, pos, acc =>
      if ('0' ≤ c && c ≤ '9') || c = '.' || c = 'e' || c = 'E' || c = '+' || c = '-' then
        lexNumTail rest line (col + 1) (pos + 1) (acc ++ [c])
      else (c :: rest, line, col, pos, acc)

/-- Digit list to natural number. -/
def digitsToNat (ds : List Char) : Nat :=
  ds.foldl (fun acc c => acc * 10 + (c.toNat - '0'.toNat)) 0

/-- Whether every character of the list is an ASCII digit. -/
def allDigits (ds : List Char) : Bool :=
  ds.all fun c => '0' ≤ c && c ≤ '9'

/-- Split a list at the first occurrence of a character satisfying `p`:
returns (before, the element and what follows it, if any). -/
def splitAtFirst (p : Char → Bool) : List Char → List Char × Option (Char × List Char)
  | [] => ([], none)
  | c :: rest =>
      if p c then ([], some (c, rest))
      else
        let (before, found) := splitAtFirst p rest
        (c :: before, found)

/-- Model of Rust `str::parse::<f64>` on the character set the lexer's
`num_str` can contain (digits, one `.`, one `e`/`E`, a sign after the
exponent marker): accepts `digits [. digits] [eE [sign] digits]` with at
least one mantissa digit and, when an exponent marker is present, at least
one exponent digit.  The value is the literal's exact mathematical value as
an `F64` fraction (rounding to the nearest `f64` is not modelled; no claim
compares inexact float values). -/
def parseF64 (cs : List Char) : Option F64 :=
  let (mant, expPart) := splitAtFirst (fun c => c = 'e' || c = 'E') cs
  let (intPart, rest) := splitAtFirst (fun c => c = '.') mant
  let fracPart : Option (List Char) := match rest with
    | none => some []
    | some (_, after) => if after.contains '.' then none else some after
  match fracPart with
  | none => none
  | some frac =>
      if allDigits intPart && allDigits frac && intPart.length + frac.length ≥ 1 then
        let num : Int := (digitsToNat (intPart ++ frac) : Int)
        let den : Int := Int.pow 10 frac.length
        match expPart with
        | none => some ⟨num, den⟩
        | some (_, ecs) =>
            let (negSign, ds) : Bool × List Char := match ecs with
              | '+' :: ds => (false, ds)
              | '-' :: ds => (true, ds)
              | ds => (false, ds)
            if allDigits ds && ds.length ≥ 1 then
              if negSign then some ⟨num, den * Int.pow 10 (digitsToNat ds)⟩
              else some ⟨num * Int.pow 10 (digitsToNat ds), den⟩
            else none
      else none

/-- Outcome of `Lexer::number`: the token or error, plus the lexer state. -/
structure NumOut where
  result : Except LexerError Token
  rest : List Char
  line : Nat
  col : Nat
  pos : Nat
deriving Repr

/-- Rust `Lexer::number`: consume a numeric literal.  A second decimal point
(or a decimal point after an exponent marker) triggers the greedy
malformed-tail consumption and an `InvalidNumberFormat` error covering
everything consumed; a second exponent marker errors immediately after
consuming that marker; otherwise the accumulated literal is parsed as an
`f64` (failure there also yields `InvalidNumberFormat`).  The fuel argument
only bounds loop iterations (each consumes at least one character, so any
fuel exceeding the remaining input length gives Rust behavior); at fuel 0
the function behaves as at end of input, which callers never reach. -/
def lexNumber : Nat → List Char → Nat → Nat → Nat → (startLine startCol : Nat) →
    List Char → Bool → Bool → NumOut
  | 0, cs, line, col, pos, sl, sc, acc, _, _ =>
      match parseF64 acc with
      | some q => ⟨.ok (.number q), cs, line, col, pos⟩
      | none => ⟨.error (.invalidNumberFormat ⟨acc⟩ sl sc), cs, line, col, pos⟩
  | _ + 1, [], line, col, pos, sl, sc, acc, _, _ =>
      match parseF64 acc with
      | some q => ⟨.ok (.number q), [], line, col, pos⟩
      | none => ⟨.error (.invalidNumberFormat ⟨acc⟩ sl sc), [], line, col, pos⟩
  | fuel + 1, c :: rest, line, col, pos, sl, sc, acc, hasDot, hasExp =>
      if '0' ≤ c && c ≤ '9' then
        lexNumber fuel rest line (col + 1) (pos + 1) sl sc (acc ++ [c]) hasDot hasExp
      else if c = '.' then
        if hasDot || hasExp then
          let (rest2, line2, col2, pos2, acc2) :=
            lexNumTail rest line (col + 1) (pos + 1) (acc ++ [c])
          ⟨.error (.invalidNumberFormat ⟨acc2⟩ sl sc), rest2, line2, col2, pos2⟩
        else
          lexNumber fuel rest line (col + 1) (pos + 1) sl sc (acc ++ [c]) true hasExp
      else if c = 'e' || c = 'E' then
        if hasExp then
          ⟨.error (.invalidNumberFormat ⟨acc ++ [c]⟩ sl sc), rest, line, (col + 1), (pos + 1)⟩
        else
          match rest with
          | s :: rest2 =>
              if s = '+' || s = '-' then
                lexNumber fuel rest2 line (col + 2) (pos + 2) sl sc (acc ++ [c, s]) hasDot true
              else
                lexNumber fuel rest line (col + 1) (pos + 1) sl sc (acc ++ [c]) hasDot true
          | [] => lexNumber fuel [] line (col + 1) (pos + 1) sl sc (acc ++ [c]) hasDot true
      else
        match parseF64 acc with
        | some q => ⟨.ok (.number q), c :: rest, line, col, pos⟩
        | none => ⟨.error (.invalidNumberFormat ⟨acc⟩ sl sc), c :: rest, line, col, pos⟩

/-- Skip to (but not past) the next `'\n'`: the `//` line-comment loop. -/
def skipLineComment : List Char → Nat → Nat → Nat → List Char × Nat × Nat × Nat
  | [], line, col, pos => ([], line, col, pos)
  | c :: rest, line, col, pos =>
      if c = '\n' then (c :: rest, line, col, pos)
      else skipLineComment rest line (col + 1) (pos + 1)

/-- Skip past the closing `*/` of a block comment (or to end of input). -/
def skipBlockComment : List Char → Nat → Nat → Nat → List Char × Nat × Nat × Nat
  | [], line, col, pos => ([], line, col, pos)
  | c :: rest, line, col, pos =>
      if c = '*' then
        match rest with
        | '/' :: rest2 => (rest2, line, col + 2, pos + 2)
        | _ => skipBlockComment rest line (col + 1) (pos + 1)
      else
        let (line2, col2) := lexStep c line col
        skipBlockComment rest line2 col2 (pos + 1)

/-- One- or two-character operator lexing for `! = < >` (two-character forms
`!= == <= >=` greedily preferred). -/
def lexTwoChar (one two : Token) : List Char → Nat → Nat → Nat →
    List Char × Nat × Nat × Nat × SpannedToken
  | rest, line, col, pos =>
      match rest with
      | '=' :: rest2 => (rest2, line, col + 2, pos + 2, two.withSpan line col pos)
      | _ => (rest, line, col + 1, pos + 1, one.withSpan line col pos)

/-- The main `Lexer::tokenize` loop.  Fuel bounds the number of loop
iterations; `none` means the fuel ran out (with fuel > input length this
cannot happen, since every iteration consumes at least one character). -/
def tokenizeLoop : Nat → List Char → Nat → Nat → Nat →
    List SpannedToken → List LexerError →
    Option (List SpannedToken × List LexerError × Nat × Nat × Nat)
  | 0, _, _, _, _, _, _ => none
  | _ + 1, [], line, col, pos, toks, errs => some (toks, errs, line, col, pos)
  | fuel + 1, c :: rest, line, col, pos, toks, errs =>
      if ('0' ≤ c && c ≤ '9') || c = '.' then
        let out := lexNumber (rest.length + 2) (c :: rest) line col pos line col [] false false
        match out.result with
        | .ok t => tokenizeLoop fuel out.rest out.line out.col out.pos
            (toks ++ [t.withSpan line col pos]) errs
        | .error e => tokenizeLoop fuel out.rest out.line out.col out.pos toks (errs ++ [e])
      else if ('a' ≤ c && c ≤ 'z') || ('A' ≤ c && c ≤ 'Z') || c = '_' then
        let (rest2, line2, col2, pos2, acc) := lexIdent (c :: rest) line col pos []
        tokenizeLoop fuel rest2 line2 col2 pos2
          (toks ++ [(Token.identifier ⟨acc⟩).withSpan line col pos]) errs
      else if c = '+' then
        tokenizeLoop fuel rest line (col + 1) (pos + 1) (toks ++ [Token.plus.withSpan line col pos]) errs
      else if c = '-' then
        tokenizeLoop fuel rest line (col + 1) (pos + 1) (toks ++ [Token.minus.withSpan line col pos]) errs
      else if c = '*' then
        tokenizeLoop fuel rest line (col + 1) (pos + 1) (toks ++ [Token.star.withSpan line col pos]) errs
      else if c = '/' then
        match rest with
        | '/' :: rest2 =>
            let (rest3, line3, col3, pos3) := skipLineComment rest2 line (col + 2) (pos + 2)
            tokenizeLoop fuel rest3 line3 col3 pos3 toks errs
        | '*' :: rest2 =>
            let (rest3, line3, col3, pos3) := skipBlockComment rest2 line (col + 2) (pos + 2)
            tokenizeLoop fuel rest3 line3 col3 pos3 toks errs
        | _ =>
            tokenizeLoop fuel rest line (col + 1) (pos + 1) (toks ++ [Token.slash.withSpan line col pos]) errs
      else if c = '%' then
        tokenizeLoop fuel rest line (col + 1) (pos + 1) (toks ++ [Token.percent.withSpan line col pos]) errs
      else if c = '^' then
        tokenizeLoop fuel rest line (col + 1) (pos + 1) (toks ++ [Token.caret.withSpan line col pos]) errs
      else if c = '(' then
        tokenizeLoop fuel rest line (col + 1) (pos + 1) (toks ++ [Token.lparen.withSpan line col pos]) errs
      else if c = ')' then
        tokenizeLoop fuel rest line (col + 1) (pos + 1) (toks ++ [Token.rparen.withSpan line col pos]) errs
      else if c = '[' then
        tokenizeLoop fuel rest line (col + 1) (pos + 1) (toks ++ [Token.lbracket.withSpan line col pos]) errs
      else if c = ']' then
        tokenizeLoop fuel rest line (col + 1) (pos + 1) (toks ++ [Token.rbracket.withSpan line col pos]) errs
      else if c = '\x7b' then
        tokenizeLoop fuel rest line (col + 1) (pos + 1) (toks ++ [Token.lbrace.withSpan line col pos]) errs
      else if c = '\x7d' then
        tokenizeLoop fuel rest line (col + 1) (pos + 1) (toks ++ [Token.rbrace.withSpan line col pos]) errs
      else if c = ',' then
        tokenizeLoop fuel rest line (col + 1) (pos + 1) (toks ++ [Token.comma.withSpan line col pos]) errs
      else if c = '!' then
        let (rest2, line2, col2, pos2, st) := lexTwoChar .exclamation .exclamationEqual rest line col pos
        tokenizeLoop fuel rest2 line2 col2 pos2 (toks ++ [st]) errs
      else if c = '=' then
        let (rest2, line2, col2, pos2, st) := lexTwoChar .equal .equalEqual rest line col pos
        tokenizeLoop fuel rest2 line2 col2 pos2 (toks ++ [st]) errs
      else if c = '<' then
        let (rest2, line2, col2, pos2, st) := lexTwoChar .less .lessEqual rest line col pos
        tokenizeLoop fuel rest2 line2 col2 pos2 (toks ++ [st]) errs
      else if c = '>' then
        let (rest2, line2, col2, pos2, st) := lexTwoChar .greater .greaterEqual rest line col pos
        tokenizeLoop fuel rest2 line2 col2 pos2 (toks ++ [st]) errs
      else if c = ';' then
        tokenizeLoop fuel rest line (col + 1) (pos + 1) (toks ++ [Token.semicolon.withSpan line col pos]) errs
      else if rustIsWhitespace c then
        let (rest2, line2, col2, pos2, toks2) := lexWhitespace (c :: rest) line col pos toks
        tokenizeLoop fuel rest2 line2 col2 pos2 toks2 errs
      else
        let (line2, col2) := lexStep c line col
        tokenizeLoop fuel rest line2 col2 (pos + 1) toks
          (errs ++ [.unexpectedCharacter c line col])

/-- Rust `Lexer::tokenize`: lex a whole source string.  Always appends the
final `Eof` token; returns all accumulated errors if there were any.
`none` only on fuel exhaustion, which `length + 1` fuel rules out. -/
def tokenize (source : String) : Option (Except (List LexerError) (List SpannedToken)) :=
  match tokenizeLoop (source.data.length + 1) source.data 1 1 0 [] [] with
  | none => none
  | some (toks, errs, line, col, pos) =>
      if errs.isEmpty then some (.ok (toks ++ [Token.eof.withSpan line col pos]))
      else some (.error errs)

/-- Rust `Expr` from `src/parser/ast.rs` (boxes flattened, `Vec` as `List`). -/
inductive Expr where
  | number (n : F64)
  | identifier (name : String)
  | assignment (target : String) (value : Expr)
  | binary (left : Expr) (op : Token) (right : Expr)
  | unary (op : Token) (expr : Expr)
  | call (function : Expr) (args : List Expr)
  | function (name : String) (args : List String) (body : Expr)

/-- Rust derived `Debug` for `Token` (variant name plus payload). -/
def reprToken : Token → String
  | .number n => "Number(" ++ reprQ n ++ ")"
  | .identifier s => "Identifier(\"" ++ s ++ "\")"
  | .plus => "Plus"
  | .minus => "Minus"
  | .star => "Star"
  | .slash => "Slash"
  | .percent => "Percent"
  | .caret => "Caret"
  | .lparen => "LParen"
  | .rparen => "RParen"
  | .lbrace => "LBrace"
  | .rbrace => "RBrace"
  | .lbracket => "LBracket"
  | .rbracket => "RBracket"
  | .comma => "Comma"
  | .equal => "Equal"
  | .equalEqual => "EqualEqual"
  | .less => "Less"
  | .greater => "Greater"
  | .lessEqual => "LessEqual"
  | .greaterEqual => "GreaterEqual"
  | .exclamation => "Exclamation"
  | .exclamationEqual => "ExclamationEqual"
  | .semicolon => "Semicolon"
  | .newline => "Newline"
  | .whitespace => "Whitespace"
  | .eof => "Eof"

/-- Rust `Debug` for `Vec<String>`. -/
def reprStringList (ss : List String) : String :=
  "[" ++ String.intercalate ", " (ss.map fun s => "\"" ++ s ++ "\"") ++ "]"

mutual

/-- Rust derived `Debug` for `Expr`. -/
def reprExpr : Expr → String
  | .number n => "Number(" ++ reprQ n ++ ")"
  | .identifier s => "Identifier(\"" ++ s ++ "\")"
  | .assignment target value =>
      "Assignment \x7b target: \"" ++ target ++ "\", value: " ++ reprExpr value ++ " \x7d"
  | .binary l op r =>
      "Binary \x7b left: " ++ reprExpr l ++ ", op: " ++ reprToken op ++
        ", right: " ++ reprExpr r ++ " \x7d"
  | .unary op e =>
      "Unary \x7b op: " ++ reprToken op ++ ", expr: " ++ reprExpr e ++ " \x7d"
  | .call f args =>
      "Call \x7b function: " ++ reprExpr f ++ ", args: [" ++ reprExprList args ++ "] \x7d"
  | .function name args body =>
      "Function \x7b name: \"" ++ name ++ "\", args: " ++ reprStringList args ++
        ", body: " ++ reprExpr body ++ " \x7d"

/-- Comma-separated `Debug` rendering of an expression list. -/
def reprExprList : List Expr → String
  | [] => ""
  | [e] => reprExpr e
  | e :: rest => reprExpr e ++ ", " ++ reprExprList rest

end

instance : Repr Expr := ⟨fun e _ => Std.Format.text (reprExpr e)⟩

/-- Rust `ParserError` (`src/parser/error.rs`). -/
inductive ParserError where
  | unexpectedToken (found : Token) (line col pos : Nat)
  | expectedToken (expected found : Token) (line col pos : Nat)
  | unexpectedEof (expected : String) (line col pos : Nat)
  | invalidAssignment (target : Expr) (line col pos : Nat)
  | invalidFunctionParameter (param : Expr) (line col pos : Nat)
  | invalidFunctionDefinition (line col pos : Nat)
deriving Repr

/-- Rust `Display for ParserError` (via `thiserror`). -/
def ParserError.display : ParserError → String
  | .unexpectedToken found line col _ =>
      "line " ++ toString line ++ ", col " ++ toString col ++
        ": Unexpected token \x27" ++ found.description ++ "\x27"
  | .expectedToken expected found line col _ =>
      "line " ++ toString line ++ ", col " ++ toString col ++
        ": Expected " ++ expected.description ++ ", found " ++ found.description
  | .unexpectedEof expected line col _ =>
      "line " ++ toString line ++ ", col " ++ toString col ++
        ": Unexpected end of input, expected \x27" ++ expected ++ "\x27"
  | .invalidAssignment target line col _ =>
      "line " ++ toString line ++ ", col " ++ toString col ++
        ": Cannot assign to \x27" ++ reprExpr target ++ "\x27, left-hand side must be a variable"
  | .invalidFunctionParameter param line col _ =>
      "line " ++ toString line ++ ", col " ++ toString col ++
        ": Function parameter must be an identifier, found \x27" ++ reprExpr param ++ "\x27"
  | .invalidFunctionDefinition line col _ =>
      "line " ++ toString line ++ ", col " ++ toString col ++
        ": Invalid function definition syntax"

/-- Rust `Precedence` (`src/parser/pratt.rs`); `pre` models the source's
prefix-operator rung, between `power` and `call`. -/
inductive Precedence where
  | lowest
  | assignment
  | comparison
  | sum
  | product
  | power
  | pre
  | call
deriving DecidableEq, Repr

/-- The numeric discriminant the source's derived `Ord` compares by. -/
def Precedence.val : Precedence → Nat
  | .lowest => 0
  | .assignment => 1
  | .comparison => 2
  | .sum => 3
  | .product => 4
  | .power => 5
  | .pre => 6
  | .call => 7

/-- Rust `Precedence::from_token`. -/
def Precedence.fromToken : Token → Precedence
  | .equal => .assignment
  | .plus | .minus => .sum
  | .star | .slash | .percent => .product
  | .caret => .power
  | .equalEqual | .exclamationEqual | .less | .greater | .lessEqual | .greaterEqual => .comparison
  | .lparen => .call
  | _ => .lowest

/-- Rust `Parser::current` over the token vector and cursor. -/
def currentTok (tokens : List SpannedToken) (pos : Nat) : Option Token :=
  (tokens[pos]?).map fun st => st.value

/-- Rust `Parser::position`. -/
def positionAt (tokens : List SpannedToken) (pos : Nat) : Nat × Nat × Nat :=
  match tokens[pos]? with
  | some st => (st.span.line, st.span.col, st.span.pos)
  | none =>
      match tokens.getLast? with
      | some last => (last.span.line, last.span.col, last.span.pos)
      | none => (1, 1, 0)

/-- The backward scan of Rust `Parser::previous`, skipping whitespace
tokens (and, like the source, skipping out-of-range indices). -/
def previousAux (tokens : List SpannedToken) : Nat → Option Token
  | 0 => none
  | i + 1 =>
      match tokens[i]? with
      | some st => if st.value = .whitespace then previousAux tokens i else some st.value
      | none => previousAux tokens i

/-- Rust `Parser::previous`. -/
def previousTok (tokens : List SpannedToken) (pos : Nat) : Option Token :=
  previousAux tokens pos

/-- Rust `Parser::has_whitespace_before`. -/
def hasWhitespaceBefore (tokens : List SpannedToken) (pos : Nat) : Bool :=
  if pos = 0 then false
  else
    match tokens[pos - 1]? with
    | some st => st.value = .whitespace
    | none => false

/-- Number of whitespace tokens at the head of a token list. -/
def wsCount : List SpannedToken → Nat
  | [] => 0
  | st :: rest => if st.value = .whitespace then wsCount rest + 1 else 0

/-- Rust `Parser::whitespace`: the cursor after skipping whitespace tokens. -/
def wsSkip (tokens : List SpannedToken) (pos : Nat) : Nat :=
  pos + wsCount (tokens.drop pos)

/-- Number of tokens Rust `Parser::synchronize` consumes: everything up to
and including the first `Semicolon`/`Newline`/`Eof` (or the whole rest). -/
def syncSteps : List SpannedToken → Nat
  | [] => 0
  | st :: rest =>
      match st.value with
      | .semicolon | .newline | .eof => 1
      | _ => 1 + syncSteps rest

/-- Rust `Parser::synchronize`. -/
def synchronize (tokens : List SpannedToken) (pos : Nat) : Nat :=
  pos + syncSteps (tokens.drop pos)

/-- Result of a parsing routine: the Rust return value plus the final
cursor; `out` is fuel exhaustion (не present in Rust, which recurses
unboundedly). -/
inductive PRes (α : Type) where
  | ok (a : α) (pos : Nat)
  | err (e : ParserError) (pos : Nat)
  | out
deriving Repr

/-- Rust `Parser::expect`: skip whitespace, then require the expected token. -/
def expectTok (tokens : List SpannedToken) (expected : Token) (pos : Nat) : PRes Unit :=
  let p := wsSkip tokens pos
  let cur := (currentTok tokens p).getD .eof
  if cur = expected then .ok () (p + 1)
  else
    let (line, col, ps) := positionAt tokens p
    if cur = .eof then .err (.unexpectedEof expected.description line col ps) p
    else .err (.expectedToken expected cur line col ps) p

/-- Rust `Parser::is_implicit_multiplication`. -/
def isImplicitMul (tokens : List SpannedToken) (pos : Nat) (t : Token) : Bool :=
  if hasWhitespaceBefore tokens pos then false
  else
    match t with
    | .identifier _ =>
        match previousTok tokens pos with
        | some (.number _) | some .rparen => true
        | _ => false
    | .number _ =>
        match previousTok tokens pos with
        | some .rparen | some (.identifier _) => true
        | _ => false
    | _ => false

/-- The parameter-validation loop of the `Token::Equal` arm of
`Parser::expression`: every argument of the reinterpreted call must be a
bare identifier; the first offending argument is returned as the error. -/
def collectParams : List Expr → Except Expr (List String)
  | [] => .ok []
  | .identifier name :: rest =>
      match collectParams rest with
      | .ok params => .ok (name :: params)
      | .error e => .error e
  | arg :: _ => .error arg

mutual

/-- Rust `Parser::expression`: parse the head via `atom` (the source's
`prefix()`), then run the infix loop. -/
def expression (tokens : List SpannedToken) (fuel : Nat) (prec : Precedence) (pos : Nat) :
    PRes Expr :=
  match fuel with
  | 0 => .out
  | fuel + 1 =>
      match atom tokens fuel pos with
      | .ok left p => exprLoop tokens fuel prec left p
      | .err e p => .err e p
      | .out => .out
termination_by structural fuel

/-- The `loop` body of Rust `Parser::expression`: skip whitespace, examine
the current token, and either extend `left` (assignment / function
definition / call / implicit multiplication / infix operator) or stop. -/
def exprLoop (tokens : List SpannedToken) (fuel : Nat) (prec : Precedence) (left : Expr)
    (pos : Nat) : PRes Expr :=
  match fuel with
  | 0 => .out
  | fuel + 1 =>
      let p := wsSkip tokens pos
      match currentTok tokens p with
      | none => .ok left p
      | some t =>
          match t with
          | .eof | .newline | .semicolon => .ok left p
          | .equal =>
              if Precedence.assignment.val ≤ prec.val then .ok left p
              else
                match left with
                | .call (.identifier name) args =>
                    (match collectParams args with
                     | .error arg =>
                         let (line, col, ps) := positionAt tokens p
                         .err (.invalidFunctionParameter arg line col ps) p
                     | .ok params =>
                         match expression tokens fuel .assignment (p + 1) with
                         | .ok body p2 => exprLoop tokens fuel prec (.function name params body) p2
                         | .err e p2 => .err e p2
                         | .out => .out)
                | .call _ _ =>
                    let (line, col, ps) := positionAt tokens p
                    .err (.invalidFunctionDefinition line col ps) p
                | .identifier name =>
                    match expression tokens fuel .assignment (p + 1) with
                    | .ok value p2 => exprLoop tokens fuel prec (.assignment name value) p2
                    | .err e p2 => .err e p2
                    | .out => .out
                | _ =>
                    let (line, col, ps) := positionAt tokens p
                    .err (.invalidAssignment left line col ps) p
          | .lparen =>
              if (match left with | .identifier _ => true | _ => false)
                  && !hasWhitespaceBefore tokens p
                  && decide (prec.val < Precedence.product.val) then
                match callFn tokens fuel left p with
                | .ok newLeft p2 => exprLoop tokens fuel prec newLeft p2
                | .err e p2 => .err e p2
                | .out => .out
              else if !hasWhitespaceBefore tokens p then
                if Precedence.product.val ≤ prec.val then .ok left p
                else
                  match expression tokens fuel .product p with
                  | .ok right p2 => exprLoop tokens fuel prec (.binary left .star right) p2
                  | .err e p2 => .err e p2
                  | .out => .out
              else .ok left p
          | _ =>
              if isImplicitMul tokens p t then
                if Precedence.product.val < prec.val then .ok left p
                else
                  match expression tokens fuel .product p with
                  | .ok right p2 => exprLoop tokens fuel prec (.binary left .star right) p2
                  | .err e p2 => .err e p2
                  | .out => .out
              else
                let tokenPrec := Precedence.fromToken t
                let shouldBreak :=
                  match t with
                  | .caret => decide (tokenPrec.val < prec.val)
                  | _ => decide (tokenPrec.val ≤ prec.val)
                if shouldBreak then .ok left p
                else
                  match expression tokens fuel tokenPrec (p + 1) with
                  | .ok right p2 => exprLoop tokens fuel prec (.binary left t right) p2
                  | .err e p2 => .err e p2
                  | .out => .out
termination_by structural fuel

/-- Rust `Parser::prefix` (named `atom` here because `pre`-keyword names are
unavailable): number / identifier / unary `+`/`-` / parenthesized group. -/
def atom (tokens : List SpannedToken) (fuel : Nat) (pos : Nat) : PRes Expr :=
  match fuel with
  | 0 => .out
  | fuel + 1 =>
      let p := wsSkip tokens pos
      match currentTok tokens p with
      | some (.number n) => .ok (.number n) (p + 1)
      | some (.identifier name) => .ok (.identifier name) (p + 1)
      | some .minus =>
          match expression tokens fuel .pre (p + 1) with
          | .ok e p2 => .ok (.unary .minus e) p2
          | .err e p2 => .err e p2
          | .out => .out
      | some .plus =>
          match expression tokens fuel .pre (p + 1) with
          | .ok e p2 => .ok (.unary .plus e) p2
          | .err e p2 => .err e p2
          | .out => .out
      | some .lparen =>
          match expression tokens fuel .lowest (p + 1) with
          | .ok e p2 =>
              (match expectTok tokens .rparen p2 with
               | .ok _ p3 => .ok e p3
               | .err err p3 => .err err p3
               | .out => .out)
          | .err e p2 => .err e p2
          | .out => .out
      | some t =>
          let (line, col, ps) := positionAt tokens p
          .err (.unexpectedToken t line col ps) p
      | none =>
          let (line, col, ps) := positionAt tokens p
          .err (.unexpectedEof "expression" line col ps) p
termination_by structural fuel

/-- Rust `Parser::call`: parse the argument list and build the `Call` node. -/
def callFn (tokens : List SpannedToken) (fuel : Nat) (function : Expr) (pos : Nat) :
    PRes Expr :=
  match fuel with
  | 0 => .out
  | fuel + 1 =>
      match argumentsFn tokens fuel pos with
      | .ok args p => .ok (.call function args) p
      | .err e p => .err e p
      | .out => .out
termination_by structural fuel

/-- Rust `Parser::arguments`: `(`, a possibly-empty comma-separated list of
expressions at `Lowest` precedence, then `)`. -/
def argumentsFn (tokens : List SpannedToken) (fuel : Nat) (pos : Nat) : PRes (List Expr) :=
  match fuel with
  | 0 => .out
  | fuel + 1 =>
      match expectTok tokens .lparen pos with
      | .err e p => .err e p
      | .out => .out
      | .ok _ p1 =>
          let p2 := wsSkip tokens p1
          if currentTok tokens p2 ≠ some Token.rparen then
            match argsLoop tokens fuel [] p2 with
            | .ok args p3 =>
                (match expectTok tokens .rparen p3 with
                 | .ok _ p4 => .ok args p4
                 | .err e p4 => .err e p4
                 | .out => .out)
            | .err e p3 => .err e p3
            | .out => .out
          else
            match expectTok tokens .rparen p2 with
            | .ok _ p4 => .ok [] p4
            | .err e p4 => .err e p4
            | .out => .out
termination_by structural fuel

/-- The `loop` inside Rust `Parser::arguments`. -/
def argsLoop (tokens : List SpannedToken) (fuel : Nat) (acc : List Expr) (pos : Nat) :
    PRes (List Expr) :=
  match fuel with
  | 0 => .out
  | fuel + 1 =>
      match expression tokens fuel .lowest pos with
      | .ok e p =>
          let p2 := wsSkip tokens p
          if currentTok tokens p2 = some Token.comma then
            argsLoop tokens fuel (acc ++ [e]) (p2 + 1)
          else .ok (acc ++ [e]) p2
      | .err e p => .err e p
      | .out => .out
termination_by structural fuel

end

/-- Rust `Parser::program`: statement loop with error recovery via
`synchronize`.  `none` is fuel exhaustion. -/
def programLoop (tokens : List SpannedToken) :
    Nat → List Expr → List ParserError → Nat → Option (List Expr × List ParserError)
  | 0, _, _, _ => none
  | fuel + 1, nodes, errors, pos =>
      match currentTok tokens pos with
      | none => some (nodes, errors)
      | some t =>
          match t with
          | .eof => some (nodes, errors)
          | .newline | .semicolon | .whitespace => programLoop tokens fuel nodes errors (pos + 1)
          | _ =>
              match expression tokens fuel .lowest pos with
              | .ok e p => programLoop tokens fuel (nodes ++ [e]) errors p
              | .err e p => programLoop tokens fuel nodes (errors ++ [e]) (synchronize tokens p)
              | .out => none

/-- Rust `Parser::parse` on a token vector, with fuel amply linear in the
input size (every parser step either consumes a token or descends with a
token in hand, so this bound is never the limiting factor on real runs). -/
def parseTokens (tokens : List SpannedToken) : Option (Except (List ParserError) (List Expr)) :=
  match programLoop tokens (8 * tokens.length + 64) [] [] 0 with
  | none => none
  | some (nodes, errors) =>
      if errors.isEmpty then some (.ok nodes) else some (.error errors)

/-- Combined front-end outcome for a source string. -/
inductive FrontOut where
  | lexErr (errs : List LexerError)
  | parseErr (errs : List ParserError)
  | parsed (exprs : List Expr)
deriving Repr

/-- Lex then parse a source string (the front half of `run_source`). -/
def parseSource (source : String) : Option FrontOut :=
  match tokenize source with
  | none => none
  | some (.error errs) => some (.lexErr errs)
  | some (.ok toks) =>
      match parseTokens toks with
      | none => none
      | some (.error errs) => some (.parseErr errs)
      | some (.ok exprs) => some (.parsed exprs)

/-- Rust `Value` (`src/interpreter/value.rs`), with `FunctionValue` flattened
into the `function` constructor (params + body). -/
inductive Value where
  | number (n : F64)
  | function (params : List String) (body : Expr)
  | unit

/-- Rust derived `Debug` for `Value` (including the `FunctionValue` wrapper). -/
def reprValue : Value → String
  | .number n => "Number(" ++ reprQ n ++ ")"
  | .function params body =>
      "Function(FunctionValue \x7b params: " ++ reprStringList params ++
        ", body: " ++ reprExpr body ++ " \x7d)"
  | .unit => "Unit"

instance : Repr Value := ⟨fun v _ => Std.Format.text (reprValue v)⟩

/-- Rust `Env` (`src/interpreter/env.rs`): `HashMap<String, Value>` modelled
as an association list with unique keys; `clone` is the identity. -/
abbrev Env := List (String × Value)

/-- Rust `Env::get`: exact-string lookup. -/
def envGet : Env → String → Option Value
  | [], _ => none
  | (k, v) :: rest, name => if k = name then some v else envGet rest name

/-- Rust `Env::set` (`HashMap::insert`): overwrite the existing binding or
append a new one — "last write wins", keys stay unique. -/
def envSet : Env → String → Value → Env
  | [], name, v => [(name, v)]
  | (k, w) :: rest, name, v =>
      if k = name then (k, v) :: rest else (k, w) :: envSet rest name v

/-- Rust `EvalError` (`src/interpreter/error.rs`). -/
inductive EvalError where
  | unknownVariable (name : String)
  | unsupportedExpression (msg : String)
  | invalidUnary (op : Token)
deriving DecidableEq, Repr

/-- Rust `Display for EvalError` (via `thiserror`; `InvalidUnary` prints the
token with `{:?}`). -/
def EvalError.display : EvalError → String
  | .unknownVariable n => "Unknown variable: \x27" ++ n ++ "\x27"
  | .unsupportedExpression s => "Unsupported expression: " ++ s
  | .invalidUnary t => "Invalid unary operation: \x27" ++ reprToken t ++ "\x27"

/-- The `format!` payload of the unsupported-binary-operation error
(`eval.rs` line 52): Debug of left operand, operator and right operand. -/
def unsupportedBinaryMsg (left : Expr) (op : Token) (right : Expr) : String :=
  "Unsupported binary operation: " ++ reprExpr left ++ " " ++ reprToken op ++
    " " ++ reprExpr right

/-- The `format!` payload of the arity-mismatch error (`eval.rs` line 81). -/
def arityMsg (expected got : Nat) : String :=
  "Function expected " ++ toString expected ++ " arguments but got " ++ toString got

/-- The `format!` payload of the called-a-non-function error (`eval.rs` 97). -/
def notCallableMsg (v : Value) : String :=
  "Attempted to call a non-function value: " ++ reprValue v

/-- Result of `Evaluator::eval`: the Rust `Result<Value, EvalError>` plus the
evaluator's environment after the call (`self.env` is mutated in place in
Rust); `out` is fuel exhaustion (Rust recursion is unbounded). -/
inductive EvalOut where
  | ok (v : Value) (env : Env)
  | error (e : EvalError) (env : Env)
  | out
deriving Repr

/-- Result of the argument-binding loop in the `Expr::Call` arm: the clone
being populated plus the caller's environment after the argument
evaluations (or the propagated error with the caller's environment). -/
inductive ArgsOut where
  | ok (newEnv : Env) (callerEnv : Env)
  | error (e : EvalError) (callerEnv : Env)
  | out
deriving Repr

mutual

/-- Rust `Evaluator::eval` (`src/interpreter/eval.rs`), parameterized by the
model `powf` of `f64::powf` and by fuel.  The environment is threaded
explicitly: each arm returns the final `self.env`.  In the `Call` arm the
environment is cloned **before** the arguments are evaluated; arguments are
evaluated against the caller's environment (`self.eval`), each value is
bound into the clone, and the body is evaluated once against the clone by a
fresh evaluator whose environment is discarded. -/
def eval (powf : F64 → F64 → F64) : Nat → Expr → Env → EvalOut
  | 0, _, _ => .out
  | fuel + 1, e, env =>
      match e with
      | .number n => .ok (.number n) env
      | .identifier name =>
          (match envGet env name with
           | some v => .ok v env
           | none => .error (.unknownVariable name) env)
      | .unary op ex =>
          (match eval powf fuel ex env with
           | .ok v env2 =>
               (match op, v with
                | .minus, .number n => .ok (.number (-n)) env2
                | .plus, .number n => .ok (.number n) env2
                | _, _ => .error (.invalidUnary op) env2)
           | r => r)
      | .binary l op r =>
          (match eval powf fuel l env with
           | .ok lv env1 =>
               (match eval powf fuel r env1 with
                | .ok rv env2 =>
                    (match op, lv, rv with
                     | .plus, .number a, .number b => .ok (.number (a + b)) env2
                     | .minus, .number a, .number b => .ok (.number (a - b)) env2
                     | .star, .number a, .number b => .ok (.number (a * b)) env2
                     | .slash, .number a, .number b => .ok (.number (a / b)) env2
                     | .caret, .number a, .number b => .ok (.number (powf a b)) env2
                     | _, _, _ => .error (.unsupportedExpression (unsupportedBinaryMsg l op r)) env2)
                | r2 => r2)
           | r1 => r1)
      | .assignment target value =>
          (match eval powf fuel value env with
           | .ok v env2 => .ok .unit (envSet env2 target v)
           | r => r)
      | .function name args body => .ok .unit (envSet env name (.function args body))
      | .call f args =>
          (match eval powf fuel f env with
           | .ok fv env1 =>
               (match fv with
                | .function params body =>
                    if params.length ≠ args.length then
                      .error (.unsupportedExpression (arityMsg params.length args.length)) env1
                    else
                      (match evalArgsBind powf fuel params args env1 env1 with
                       | .ok newEnv env2 =>
                           (match eval powf fuel body newEnv with
                            | .ok v _ => .ok v env2
                            | .error er _ => .error er env2
                            | .out => .out)
                       | .error er env2 => .error er env2
                       | .out => .out)
                | _ => .error (.unsupportedExpression (notCallableMsg fv)) env1)
           | r => r)

/-- The `for (param, arg_expr) in func.params.iter().zip(args.iter())` loop
of the `Expr::Call` arm: evaluate each argument against the caller's
environment (mutating it), binding the value into the clone `newEnv`. -/
def evalArgsBind (powf : F64 → F64 → F64) : Nat → List String → List Expr → Env → Env → ArgsOut
  | 0, _, _, _, _ => .out
  | _ + 1, [], _, newEnv, callerEnv => .ok newEnv callerEnv
  | _ + 1, _ :: _, [], newEnv, callerEnv => .ok newEnv callerEnv
  | fuel + 1, p :: ps, a :: rest, newEnv, callerEnv =>
      match eval powf fuel a callerEnv with
      | .ok v env2 => evalArgsBind powf fuel ps rest (envSet newEnv p v) env2
      | .error er env2 => .error er env2
      | .out => .out

end

/-- Sequential left-to-right evaluation of an expression list against a
single threaded environment, collecting the values (the specification-side
decomposition of the call arm's argument phase; fuel is consumed exactly as
in `evalArgsBind`). -/
inductive ListOut where
  | ok (vals : List Value) (env : Env)
  | error (e : EvalError) (env : Env)
  | out
deriving Repr

/-- Evaluate each expression in order against the threaded environment. -/
def evalList (powf : F64 → F64 → F64) : Nat → List Expr → Env → ListOut
  | 0, _, _ => .out
  | _ + 1, [], env => .ok [] env
  | fuel + 1, a :: rest, env =>
      match eval powf fuel a env with
      | .ok v env2 =>
          (match evalList powf fuel rest env2 with
           | .ok vs env3 => .ok (v :: vs) env3
           | r => r)
      | .error er env2 => .error er env2
      | .out => .out

/-- Bind parameter names to values, in order, into an environment. -/
def bindParams (env : Env) (params : List String) (vals : List Value) : Env :=
  ((params.zip vals).foldl fun e pv => envSet e pv.1 pv.2) env

/-- Specification-side description of the `Expr::Call` arm as the code
actually behaves: evaluate the callee; check arity; **clone the caller's
environment at that point**; evaluate all arguments left to right against
the caller's environment; bind parameters to the argument values in the
clone; evaluate the body once against the populated clone; the result is
the body's result and the caller keeps the environment produced by the
argument evaluations. -/
def callSemantics (powf : F64 → F64 → F64) (fuel : Nat) (f : Expr) (args : List Expr)
    (env : Env) : EvalOut :=
  match eval powf fuel f env with
  | .ok (.function params body) env1 =>
      if params.length ≠ args.length then
        .error (.unsupportedExpression (arityMsg params.length args.length)) env1
      else
        match evalList powf fuel args env1 with
        | .ok vals env2 =>
            (match eval powf fuel body (bindParams env1 params vals) with
             | .ok v _ => .ok v env2
             | .error er _ => .error er env2
             | .out => .out)
        | .error er env2 => .error er env2
        | .out => .out
  | .ok fv env1 => .error (.unsupportedExpression (notCallableMsg fv)) env1
  | r => r

/-- Modelled from the spec: the call semantics asserted by the claim, which
differs from the code in the clone's timing — each argument is evaluated
against the caller's environment first, **then** that environment (as left
by the argument evaluations) is cloned, parameters are bound in the clone,
and the body is evaluated once against the clone. -/
def specClaimCallOrder (powf : F64 → F64 → F64) (fuel : Nat) (f : Expr) (args : List Expr)
    (env : Env) : EvalOut :=
  match eval powf fuel f env with
  | .ok (.function params body) env1 =>
      if params.length ≠ args.length then
        .error (.unsupportedExpression (arityMsg params.length args.length)) env1
      else
        match evalList powf fuel args env1 with
        | .ok vals env2 =>
            (match eval powf fuel body (bindParams env2 params vals) with
             | .ok v _ => .ok v env2
             | .error er _ => .error er env2
             | .out => .out)
        | .error er env2 => .error er env2
        | .out => .out
  | .ok fv env1 => .error (.unsupportedExpression (notCallableMsg fv)) env1
  | r => r

/-- The output-accumulating statement loop of `run_source`
(`src/core/runtime.rs`): `Unit` results print nothing, other values print
their Debug form on a line, evaluation errors print a `Runtime Error:` line;
evaluation continues with the same evaluator afterwards. -/
def runLoop (powf : F64 → F64 → F64) (fuel : Nat) : List Expr → Env → String → Option String
  | [], _, out => some out
  | e :: rest, env, out =>
      match eval powf fuel e env with
      | .ok .unit env2 => runLoop powf fuel rest env2 out
      | .ok v env2 => runLoop powf fuel rest env2 (out ++ reprValue v ++ "\n")
      | .error er env2 =>
          runLoop powf fuel rest env2 (out ++ "Runtime Error: " ++ er.display ++ "\n")
      | .out => none

/-- Rust `run_source` (`src/core/runtime.rs`): lex (joining lexer errors
with newlines on failure), parse (likewise), then evaluate each top-level
expression in order against one fresh environment, accumulating output. -/
def runSource (powf : F64 → F64 → F64) (fuel : Nat) (source : String) :
    Option (Except String String) :=
  match tokenize source with
  | none => none
  | some (.error errs) =>
      some (.error (String.intercalate "\n" (errs.map LexerError.display)))
  | some (.ok toks) =>
      match parseTokens toks with
      | none => none
      | some (.error errs) =>
          some (.error (String.intercalate "\n" (errs.map ParserError.display)))
      | some (.ok exprs) =>
          match runLoop powf fuel exprs [] "" with
          | none => none
          | some out => some (.ok out)

/-- An element of `currentTok` is the value of the spanned token there. -/
theorem currentTok_some {tokens : List SpannedToken} {pos : Nat} {t : Token}
    (h : currentTok tokens pos = some t) :
    ∃ st, tokens[pos]? = some st ∧ st.value = t := by
  unfold currentTok at h
  cases hg : tokens[pos]? with
  | none => rw [hg] at h; simp at h
  | some st => rw [hg] at h; simp at h; exact ⟨st, rfl, h⟩

/-- Skipping whitespace does not move the cursor when the current token is
not a whitespace token. -/
theorem wsSkip_eq_self {tokens : List SpannedToken} {pos : Nat} {st : SpannedToken}
    (h : tokens[pos]? = some st) (hws : st.value ≠ .whitespace) :
    wsSkip tokens pos = pos := by
  have hlt : pos < tokens.length := by
    by_contra hge
    rw [List.getElem?_eq_none (Nat.le_of_not_lt hge)] at h
    exact Option.noConfusion h
  have hdrop : tokens.drop pos = st :: tokens.drop (pos + 1) := by
    rw [List.drop_eq_getElem_cons hlt]
    have : tokens[pos]? = some tokens[pos] := List.getElem?_eq_getElem hlt
    rw [this] at h
    rw [Option.some.inj h]
  unfold wsSkip
  rw [hdrop]
  unfold wsCount
  simp [hws]

/-- Index of the first statement-boundary token (`Semicolon`/`Newline`/`Eof`)
of a token list, if any — the specification-side reading of `synchronize`. -/
def firstBoundary : List SpannedToken → Option Nat
  | [] => none
  | st :: rest =>
      match st.value with
      | .semicolon | .newline | .eof => some 0
      | _ => (firstBoundary rest).map fun i => i + 1

/-- `syncSteps` consumes exactly through the first boundary token, or the
whole list if there is none. -/
theorem syncSteps_spec : ∀ l : List SpannedToken,
    syncSteps l = match firstBoundary l with
      | some i => i + 1
      | none => l.length := by
  intro l
  induction l with
  | nil => rfl
  | cons st rest ih =>
      unfold syncSteps firstBoundary
      cases hv : st.value <;>
        simp only [] <;>
        (rw [ih]; cases firstBoundary rest <;> simp +arith [List.length_cons])

/-- The interleaved bind-while-evaluating loop of the call arm equals the
two-phase decomposition: evaluate all arguments left-to-right against the
caller's environment, then fold the parameter bindings into the clone.
Bindings made into the clone are invisible to argument evaluation. -/
theorem evalArgsBind_eq_evalList (powf : F64 → F64 → F64) (ps : List String) :
    ∀ (args : List Expr), ps.length = args.length →
    ∀ (fuel : Nat) (ne ce : Env),
    evalArgsBind powf fuel ps args ne ce =
      match evalList powf fuel args ce with
      | .ok vs ce2 => .ok (bindParams ne ps vs) ce2
      | .error e ce2 => .error e ce2
      | .out => .out := by
  induction ps with
  | nil =>
      intro args h fuel ne ce
      cases args with
      | nil =>
          cases fuel with
          | zero => rfl
          | succ n => rfl
      | cons a rest => simp at h
  | cons p ps ih =>
      intro args h fuel ne ce
      cases args with
      | nil => simp at h
      | cons a rest =>
          cases fuel with
          | zero => rfl
          | succ n =>
              have hlen : ps.length = rest.length := by
                simpa using h
              show evalArgsBind powf (n + 1) (p :: ps) (a :: rest) ne ce = _
              simp only [evalArgsBind, evalList]
              cases hv : eval powf n a ce with
              | ok v env2 =>
                  dsimp only
                  rw [ih rest hlen n (envSet ne p v) env2]
                  cases hrest : evalList powf n rest env2 with
                  | ok vs env3 => rfl
                  | error e env3 => rfl
                  | out => rfl
              | error e env2 => rfl
              | out => rfl

/-- Concatenation of a list of strings in order. -/
def concatAll : List String → String
  | [] => ""
  | s :: rest => s ++ concatAll rest

/-- String append is associative. -/
theorem strAppend_assoc (a b c : String) : (a ++ b) ++ c = a ++ (b ++ c) := by
  apply String.ext
  simp [String.data_append]

/-- The per-statement outcome sequence of an evaluation run: each top-level
expression in order yields its `Result<Value, EvalError>` against the
threaded environment (a failure does not stop the run); `none` only when
the evaluator runs out of fuel somewhere. -/
def statementOutcomes (powf : F64 → F64 → F64) (fuel : Nat) :
    List Expr → Env → Option (List (Except EvalError Value))
  | [], _ => some []
  | e :: rest, env =>
      match eval powf fuel e env with
      | .ok v env2 =>
          (statementOutcomes powf fuel rest env2).map fun outs => .ok v :: outs
      | .error er env2 =>
          (statementOutcomes powf fuel rest env2).map fun outs => .error er :: outs
      | .out => none

/-- The line a single statement outcome contributes to the output: nothing
for `Unit`, the value's Debug form for other values, a `Runtime Error:`
line for an evaluation error. -/
def outcomeLine : Except EvalError Value → String
  | .ok .unit => ""
  | .ok v => reprValue v ++ "\n"
  | .error e => "Runtime Error: " ++ e.display ++ "\n"

/-- The output loop of `run_source` produces exactly the concatenation of
the per-statement outcome lines, in source order, appended to the
accumulator. -/
theorem runLoop_spec (powf : F64 → F64 → F64) (fuel : Nat) :
    ∀ (exprs : List Expr) (env : Env) (acc : String),
    runLoop powf fuel exprs env acc =
      (statementOutcomes powf fuel exprs env).map
        fun outs => acc ++ concatAll (outs.map outcomeLine) := by
  intro exprs
  induction exprs with
  | nil =>
      intro env acc
      show some acc = some (acc ++ "")
      have : acc ++ "" = acc := by
        apply String.ext
        simp [String.data_append]
      rw [this]
  | cons e rest ih =>
      intro env acc
      simp only [runLoop, statementOutcomes]
      cases hv : eval powf fuel e env with
      | ok v env2 =>
          cases v with
          | unit =>
              dsimp only
              rw [ih env2 acc]
              cases statementOutcomes powf fuel rest env2 with
              | none => rfl
              | some outs =>
                  show some _ = some _
                  simp [outcomeLine, concatAll]
          | number n =>
              dsimp only
              rw [ih env2 (acc ++ reprValue (.number n) ++ "\n")]
              cases statementOutcomes powf fuel rest env2 with
              | none => rfl
              | some outs =>
                  show some _ = some _
                  congr 1
                  apply String.ext
                  simp [outcomeLine, concatAll, String.data_append]
          | function params body =>
              dsimp only
              rw [ih env2 (acc ++ reprValue (.function params body) ++ "\n")]
              cases statementOutcomes powf fuel rest env2 with
              | none => rfl
              | some outs =>
                  show some _ = some _
                  congr 1
                  apply String.ext
                  simp [outcomeLine, concatAll, String.data_append]
      | error er env2 =>
          dsimp only
          rw [ih env2 (acc ++ "Runtime Error: " ++ er.display ++ "\n")]
          cases statementOutcomes powf fuel rest env2 with
          | none => rfl
          | some outs =>
              show some _ = some _
              congr 1
              apply String.ext
              simp [outcomeLine, concatAll, String.data_append]
      | out => rfl

/-- C1 (counterexample): the claim's evaluation order is wrong about the
clone's timing.  With environment `x ↦ 1` and `f(a) = x` (a function whose
body reads `x`), the call `f(x = 2)` evaluates to `Number 1` in the code,
because the environment is cloned **before** the argument `x = 2` runs, so
the argument's mutation is not visible in the clone the body sees — while
the order asserted by the claim (arguments first, then clone) would yield
`Number 2`.  Both runs leave the caller's environment with `x ↦ 2`. -/
theorem C1_call_clone_order_counterexample :
    eval (fun _ _ => 0) 10
        (.call (.identifier "f") [.assignment "x" (.number 2)])
        [("x", .number 1), ("f", .function ["a"] (.identifier "x"))] =
      .ok (.number 1)
        [("x", .number 2), ("f", .function ["a"] (.identifier "x"))] ∧
    specClaimCallOrder (fun _ _ => 0) 9
        (.identifier "f") [.assignment "x" (.number 2)]
        [("x", .number 1), ("f", .function ["a"] (.identifier "x"))] =
      .ok (.number 2)
        [("x", .number 2), ("f", .function ["a"] (.identifier "x"))] ∧
    (1 : F64) ≠ 2 :=
  ⟨rfl, rfl, by decide⟩

/-- C1 (amended): for every `Call` whose callee evaluates to a `Function` of
matching arity, evaluation proceeds as `callSemantics` describes: the
callee is evaluated, the caller's environment is cloned **at that point**,
then each argument is evaluated left-to-right against the caller's (not the
clone's) environment and its value bound to the corresponding parameter in
the clone, and the function body is evaluated exactly once against the
populated clone; the body's result is the call's result, and the caller
keeps the environment produced by the argument evaluations, so mutations
made while evaluating an argument are seen by later arguments and survive
the call but are **not** visible in the clone used for the body. -/
theorem C1_call_clone_before_args (powf : F64 → F64 → F64) (fuel : Nat) (f : Expr)
    (args : List Expr) (env : Env) :
    eval powf (fuel + 1) (.call f args) env = callSemantics powf fuel f args env := by
  unfold callSemantics
  simp only [eval]
  cases hf : eval powf fuel f env with
  | ok fv env1 =>
      cases fv with
      | function params body =>
          dsimp only
          by_cases hlen : params.length = args.length
          · rw [if_neg (not_not_intro hlen), if_neg (not_not_intro hlen)]
            rw [evalArgsBind_eq_evalList powf params args hlen fuel env1 env1]
            cases evalList powf fuel args env1 <;> rfl
          · rw [if_pos hlen, if_pos hlen]
      | number n => rfl
      | unit => rfl
  | error e env1 => rfl
  | out => rfl

/-- C9: evaluating a function call never mutates the caller's environment
through the body.  If the callee evaluates to a matching-arity `Function`
and the argument loop completes with caller environment `env2`, then the
whole call returns the body's result (or error) paired with exactly `env2`
— the body runs only against the call-time clone `newEnv`, and whatever
environment the body's evaluation produces is discarded. -/
theorem C9_call_preserves_caller_env (powf : F64 → F64 → F64) (fuel : Nat) (f : Expr)
    (args : List Expr) (env : Env) (params : List String) (body : Expr)
    (env1 newEnv env2 : Env)
    (hf : eval powf fuel f env = .ok (.function params body) env1)
    (hlen : params.length = args.length)
    (hargs : evalArgsBind powf fuel params args env1 env1 = .ok newEnv env2) :
    eval powf (fuel + 1) (.call f args) env =
      match eval powf fuel body newEnv with
      | .ok v _ => .ok v env2
      | .error er _ => .error er env2
      | .out => .out := by
  simp only [eval, hf]
  rw [if_neg (not_not_intro hlen), hargs]

/-- C9 (witness): a concrete call whose body assigns `g ↦ 7` in its own
environment; the caller's environment is unchanged by the call. -/
theorem C9_call_preserves_caller_env_witness :
    eval (fun _ _ => 0) 6 (.call (.identifier "f") [.number 3])
        [("f", .function ["a"] (.assignment "g" (.number 7)))] =
      .ok .unit [("f", .function ["a"] (.assignment "g" (.number 7)))] := by
  have h := C9_call_preserves_caller_env (fun _ _ => 0) 5 (.identifier "f")
    [.number 3]
    [("f", .function ["a"] (.assignment "g" (.number 7)))]
    ["a"] (.assignment "g" (.number 7))
    [("f", .function ["a"] (.assignment "g" (.number 7)))]
    [("f", .function ["a"] (.assignment "g" (.number 7))), ("a", .number 3)]
    [("f", .function ["a"] (.assignment "g" (.number 7)))]
    rfl rfl rfl
  exact h

/-- C6 (counterexample): the success output is not only value lines.  For
the source `"y"` (a single statement that fails with an unknown-variable
error, so the claim's "one line per evaluated non-Unit value" predicts
empty output), `run_source` succeeds with a `Runtime Error:` line in the
output. -/
theorem C6_run_source_counterexample :
    runSource (fun _ _ => 0) 10 "y" =
      some (.ok "Runtime Error: Unknown variable: \x27y\x27\n") ∧
    "Runtime Error: Unknown variable: \x27y\x27\n" ≠ "" :=
  ⟨rfl, by decide⟩

/-- C6 (amended): given a complete source string, the entry point returns
the newline-joined lexer errors when lexing fails, the newline-joined
parser errors when parsing fails, and otherwise the concatenation, in
source order, of one line per evaluated top-level statement outcome: the
value's Debug form for a non-`Unit` value, nothing for `Unit`, and a
`"Runtime Error: "` line for a statement whose evaluation fails. -/
theorem C6_run_source_output_shape (powf : F64 → F64 → F64) (fuel : Nat) (source : String) :
    (∀ errs, tokenize source = some (.error errs) →
        runSource powf fuel source =
          some (.error (String.intercalate "\n" (errs.map LexerError.display)))) ∧
    (∀ toks errs, tokenize source = some (.ok toks) →
        parseTokens toks = some (.error errs) →
        runSource powf fuel source =
          some (.error (String.intercalate "\n" (errs.map ParserError.display)))) ∧
    (∀ exprs, parseSource source = some (.parsed exprs) →
        runSource powf fuel source =
          (statementOutcomes powf fuel exprs []).map
            fun outs => .ok (concatAll (outs.map outcomeLine))) := by
  refine ⟨?_, ?_, ?_⟩
  · intro errs h
    unfold runSource
    rw [h]
  · intro toks errs h1 h2
    unfold runSource
    rw [h1]
    dsimp only
    rw [h2]
  · intro exprs h
    unfold parseSource at h
    cases ht : tokenize source with
    | none => rw [ht] at h; simp at h
    | some r =>
        cases r with
        | error es => rw [ht] at h; simp at h
        | ok toks =>
            rw [ht] at h
            dsimp only at h
            cases hp : parseTokens toks with
            | none => rw [hp] at h; simp at h
            | some pr =>
                cases pr with
                | error es => rw [hp] at h; simp at h
                | ok exprs2 =>
                    rw [hp] at h
                    simp only [Option.some.injEq, FrontOut.parsed.injEq] at h
                    subst h
                    unfold runSource
                    rw [ht]
                    dsimp only
                    rw [hp]
                    dsimp only
                    rw [runLoop_spec powf fuel exprs2 [] ""]
                    cases statementOutcomes powf fuel exprs2 [] with
                    | none => rfl
                    | some outs => rfl

/-- C6 (witness): a two-statement run, an assignment (`Unit`, prints
nothing) followed by a numeric expression, produces exactly the one value
line. -/
theorem C6_run_source_output_shape_witness :
    runSource (fun _ _ => 0) 10 "x = 5\nx + 1" = some (.ok "Number(6.0)\n") := by
  have h := (C6_run_source_output_shape (fun _ _ => 0) 10 "x = 5\nx + 1").2.2
    [.assignment "x" (.number 5), .binary (.identifier "x") .plus (.number 1)] rfl
  exact h

/-- C5 (counterexample): the greedy consumption through the malformed tail
happens only for a second decimal point, not for a second exponent marker.
For `"1e2e3"` the single `InvalidNumberFormat` diagnostic covers only
`"1e2e"` — the literal up to and including the offending second marker —
not the whole run-on literal `"1e2e3"` the claim requires. -/
theorem C5_second_exponent_counterexample :
    tokenize "1e2e3" = some (.error [.invalidNumberFormat "1e2e" 1 1]) ∧
    "1e2e" ≠ "1e2e3" :=
  ⟨rfl, by decide⟩

/-- C5 (amended): a second decimal point makes the lexer consume greedily
through the malformed tail (digits, `.`, `e`, `E`, `+`, `-`) and report one
`InvalidNumberFormat` covering the whole run-on literal — `"12.3.4"` yields
exactly that one diagnostic and no tokens, and `"1.2.3e+4x"` consumes
through `"1.2.3e+4"` — while a second exponent marker reports an
`InvalidNumberFormat` covering the literal only up to and including that
marker, and lexing resumes right after it (for `"1e2e3"` the trailing `3`
is pushed as a `Number` token onto the internal token vector, though the
run's lexical error means `tokenize` returns the error list). -/
theorem C5_malformed_number_diagnostics :
    tokenize "12.3.4" = some (.error [.invalidNumberFormat "12.3.4" 1 1]) ∧
    tokenize "1.2.3e+4x" = some (.error [.invalidNumberFormat "1.2.3e+4" 1 1]) ∧
    tokenizeLoop 6 "1e2e3".data 1 1 0 [] [] =
      some ([(Token.number 3).withSpan 1 5 4], [.invalidNumberFormat "1e2e" 1 1], 1, 6, 5) :=
  ⟨rfl, rfl, rfl⟩

/-- C7: on a parse error in a top-level statement the parser records the
error and skips up to and including the next `Semicolon`/`Newline`/`Eof`
(`synchronize` consumes exactly through the first boundary token, or the
whole rest if none), then resumes, so one run reports every diagnostic: the
two-statement program `") ; )"` with a malformed statement on each side of
the `;` yields exactly two parse errors. -/
theorem C7_parse_error_recovery :
    (∀ (tokens : List SpannedToken) (pos : Nat),
        synchronize tokens pos = pos +
          (match firstBoundary (tokens.drop pos) with
           | some i => i + 1
           | none => (tokens.drop pos).length)) ∧
    (∀ (tokens : List SpannedToken) (fuel : Nat) (nodes : List Expr)
        (errors : List ParserError) (pos : Nat) (t : Token) (e : ParserError) (p : Nat),
        currentTok tokens pos = some t →
        t ≠ .eof → t ≠ .newline → t ≠ .semicolon → t ≠ .whitespace →
        expression tokens fuel .lowest pos = .err e p →
        programLoop tokens (fuel + 1) nodes errors pos =
          programLoop tokens fuel nodes (errors ++ [e]) (synchronize tokens p)) ∧
    parseSource ") ; )" = some (.parseErr
      [.unexpectedToken .rparen 1 1 0, .unexpectedToken .rparen 1 5 4]) := by
  refine ⟨?_, ?_, rfl⟩
  · intro tokens pos
    unfold synchronize
    rw [syncSteps_spec]
  · intro tokens fuel nodes errors pos t e p hcur h1 h2 h3 h4 hexpr
    cases t <;> simp_all only [programLoop, ne_eq, not_false_eq_true, not_true_eq_false]

/-- C7 (witness): the recovery step at a concrete malformed statement. -/
theorem C7_parse_error_recovery_witness :
    programLoop [Token.withSpan .rparen 1 1 0, Token.withSpan .eof 1 2 1] 4 [] [] 0 =
      some ([], [.unexpectedToken .rparen 1 1 0]) := by
  have h := (C7_parse_error_recovery).2.1
    [Token.withSpan .rparen 1 1 0, Token.withSpan .eof 1 2 1] 3 [] [] 0
    .rparen (.unexpectedToken .rparen 1 1 0) 0
    rfl (by decide) (by decide) (by decide) (by decide) rfl
  exact h.trans rfl

/-- C3: every binary operator is parsed left-associatively — for each infix
operator token `op` of the precedence table other than `^`, the token
sequence `1 op 2 op 3` parses as `Binary(op, Binary(op, 1, 2), 3)` — except
`Caret`, whose loop-break test uses strict `<` instead of `≤` so that
`1 ^ 2 ^ 3` parses right-associatively as `Binary(^, 1, Binary(^, 2, 3))`;
in particular `"2 ^ 3 ^ 2"` and `"1 + 2 * 3"` parse as the claim states. -/
theorem C3_operator_associativity :
    (∀ op ∈ ([.plus, .minus, .star, .slash, .percent, .equalEqual, .exclamationEqual,
        .less, .greater, .lessEqual, .greaterEqual] : List Token),
      parseTokens [Token.withSpan (.number 1) 1 1 0, Token.withSpan op 1 2 1,
          Token.withSpan (.number 2) 1 3 2, Token.withSpan op 1 4 3,
          Token.withSpan (.number 3) 1 5 4, Token.withSpan .eof 1 6 5] =
        some (.ok [.binary (.binary (.number 1) op (.number 2)) op (.number 3)])) ∧
    (parseTokens [Token.withSpan (.number 1) 1 1 0, Token.withSpan .caret 1 2 1,
        Token.withSpan (.number 2) 1 3 2, Token.withSpan .caret 1 4 3,
        Token.withSpan (.number 3) 1 5 4, Token.withSpan .eof 1 6 5] =
      some (.ok [.binary (.number 1) .caret (.binary (.number 2) .caret (.number 3))])) ∧
    parseSource "2 ^ 3 ^ 2" = some (.parsed
      [.binary (.number 2) .caret (.binary (.number 3) .caret (.number 2))]) ∧
    parseSource "1 + 2 * 3" = some (.parsed
      [.binary (.number 1) .plus (.binary (.number 2) .star (.number 3))]) := by
  refine ⟨?_, rfl, rfl, rfl⟩
  intro op hop
  fin_cases hop <;> rfl

/-- C3 (witness): left association of `-` at `1 - 2 - 3`. -/
theorem C3_operator_associativity_witness :
    parseTokens [Token.withSpan (.number 1) 1 1 0, Token.withSpan .minus 1 2 1,
        Token.withSpan (.number 2) 1 3 2, Token.withSpan .minus 1 4 3,
        Token.withSpan (.number 3) 1 5 4, Token.withSpan .eof 1 6 5] =
      some (.ok [.binary (.binary (.number 1) .minus (.number 2)) .minus (.number 3)]) :=
  (C3_operator_associativity).1 .minus (by decide)

/-- C10: `%` and the six comparison tokens are accepted by the parser as
infix operators — `Precedence::from_token` places `%` at `Product` and the
comparisons at `Comparison`, and `1 op 2` parses to a `Binary` node — but
the evaluator\'s `Binary` arm has no case for them: whenever both operands
evaluate to `Number` values, evaluation of such a `Binary` returns the
`UnsupportedExpression` error built from the operands\' Debug forms. -/
theorem C10_unsupported_binary_operators :
    (Precedence.fromToken .percent = .product) ∧
    (∀ op ∈ ([.equalEqual, .exclamationEqual, .less, .lessEqual, .greater,
        .greaterEqual] : List Token), Precedence.fromToken op = .comparison) ∧
    (∀ op ∈ ([.percent, .equalEqual, .exclamationEqual, .less, .lessEqual, .greater,
        .greaterEqual] : List Token),
      parseTokens [Token.withSpan (.number 1) 1 1 0, Token.withSpan op 1 2 1,
          Token.withSpan (.number 2) 1 3 2, Token.withSpan .eof 1 4 3] =
        some (.ok [.binary (.number 1) op (.number 2)])) ∧
    (∀ (powf : F64 → F64 → F64) (fuel : Nat) (l : Expr) (op : Token) (r : Expr)
        (env env1 env2 : Env) (a b : F64),
        op ∈ ([.percent, .equalEqual, .exclamationEqual, .less, .lessEqual, .greater,
          .greaterEqual] : List Token) →
        eval powf fuel l env = .ok (.number a) env1 →
        eval powf fuel r env1 = .ok (.number b) env2 →
        eval powf (fuel + 1) (.binary l op r) env =
          .error (.unsupportedExpression (unsupportedBinaryMsg l op r)) env2) := by
  refine ⟨rfl, ?_, ?_, ?_⟩
  · intro op hop
    fin_cases hop <;> rfl
  · intro op hop
    fin_cases hop <;> rfl
  · intro powf fuel l op r env env1 env2 a b hop hl hr
    simp only [eval, hl, hr]
    fin_cases hop <;> rfl

/-- C10 (witness): `1 % 2` at the evaluator with an empty environment. -/
theorem C10_unsupported_binary_operators_witness :
    eval (fun _ _ => 0) 5 (.binary (.number 1) .percent (.number 2)) [] =
      .error (.unsupportedExpression
        (unsupportedBinaryMsg (.number 1) .percent (.number 2))) [] :=
  (C10_unsupported_binary_operators).2.2.2 (fun _ _ => 0) 4 (.number 1) .percent
    (.number 2) [] [] [] 1 2 (by decide) rfl rfl

/-- C2: when the infix loop is about to consume `=` at a precedence below
`Assignment` — the `=` arm fires only then — a left-hand side that is a
`Call` of a bare `Identifier` is reinterpreted as a function definition:
every argument must be a bare identifier, otherwise an
`InvalidFunctionParameter` error naming the first offending argument is
raised; otherwise the parser advances past `=`, parses the body at
`Assignment` precedence, and continues the loop with the `Function` node.
A bare-`Identifier` left-hand side likewise produces `Assignment`.
Concretely, `"f(x,y) = x + y"` parses as the claimed `FunctionDef`,
`"x = 5"` as an assignment, and `"f(2,y) = 5"` raises the invalid-parameter
error naming `Number(2.0)`. -/
theorem C2_function_definition_reinterpretation :
    (∀ (tokens : List SpannedToken) (fuel : Nat) (prec : Precedence) (pos : Nat)
        (name : String) (args : List Expr) (bad : Expr) (st : SpannedToken),
        tokens[pos]? = some st → st.value = .equal →
        prec.val < Precedence.assignment.val →
        collectParams args = .error bad →
        exprLoop tokens (fuel + 1) prec (.call (.identifier name) args) pos =
          .err (.invalidFunctionParameter bad (positionAt tokens pos).1
            (positionAt tokens pos).2.1 (positionAt tokens pos).2.2) pos) ∧
    (∀ (tokens : List SpannedToken) (fuel : Nat) (prec : Precedence) (pos : Nat)
        (name : String) (args : List Expr) (params : List String) (st : SpannedToken),
        tokens[pos]? = some st → st.value = .equal →
        prec.val < Precedence.assignment.val →
        collectParams args = .ok params →
        exprLoop tokens (fuel + 1) prec (.call (.identifier name) args) pos =
          match expression tokens fuel .assignment (pos + 1) with
          | .ok body p2 => exprLoop tokens fuel prec (.function name params body) p2
          | .err e p2 => .err e p2
          | .out => .out) ∧
    (∀ (tokens : List SpannedToken) (fuel : Nat) (prec : Precedence) (pos : Nat)
        (name : String) (st : SpannedToken),
        tokens[pos]? = some st → st.value = .equal →
        prec.val < Precedence.assignment.val →
        exprLoop tokens (fuel + 1) prec (.identifier name) pos =
          match expression tokens fuel .assignment (pos + 1) with
          | .ok value p2 => exprLoop tokens fuel prec (.assignment name value) p2
          | .err e p2 => .err e p2
          | .out => .out) ∧
    parseSource "f(x,y) = x + y" = some (.parsed [.function "f" ["x", "y"]
      (.binary (.identifier "x") .plus (.identifier "y"))]) ∧
    parseSource "x = 5" = some (.parsed [.assignment "x" (.number 5)]) ∧
    parseSource "f(2,y) = 5" =
      some (.parseErr [.invalidFunctionParameter (.number 2) 1 8 7]) := by
  refine ⟨?_, ?_, ?_, rfl, rfl, rfl⟩
  · intro tokens fuel prec pos name args bad st hst hv hp hcp
    have hne : st.value ≠ Token.whitespace := by rw [hv]; decide
    have hws : wsSkip tokens pos = pos := wsSkip_eq_self hst hne
    have hcur : currentTok tokens pos = some Token.equal := by
      simp [currentTok, hst, hv]
    rcases hppos : positionAt tokens pos with ⟨l, c, q⟩
    simp only [exprLoop, hws, hcur, hppos]
    rw [if_neg (Nat.not_le.mpr hp)]
    simp only [hcp]
  · intro tokens fuel prec pos name args params st hst hv hp hcp
    have hne : st.value ≠ Token.whitespace := by rw [hv]; decide
    have hws : wsSkip tokens pos = pos := wsSkip_eq_self hst hne
    have hcur : currentTok tokens pos = some Token.equal := by
      simp [currentTok, hst, hv]
    simp only [exprLoop, hws, hcur]
    rw [if_neg (Nat.not_le.mpr hp)]
    simp only [hcp]
  · intro tokens fuel prec pos name st hst hv hp
    have hne : st.value ≠ Token.whitespace := by rw [hv]; decide
    have hws : wsSkip tokens pos = pos := wsSkip_eq_self hst hne
    have hcur : currentTok tokens pos = some Token.equal := by
      simp [currentTok, hst, hv]
    simp only [exprLoop, hws, hcur]
    rw [if_neg (Nat.not_le.mpr hp)]

/-- C2 (witness): the function-definition step at the token level, on the
tokens of `"g(a) = 1"` with the cursor on `=`. -/
theorem C2_function_definition_reinterpretation_witness :
    exprLoop [Token.withSpan (.identifier "g") 1 1 0, Token.withSpan .lparen 1 2 1,
        Token.withSpan (.identifier "a") 1 3 2, Token.withSpan .rparen 1 4 3,
        Token.withSpan .equal 1 5 4, Token.withSpan (.number 1) 1 6 5,
        Token.withSpan .eof 1 7 6] 8 .lowest
        (.call (.identifier "g") [.identifier "a"]) 4 =
      .ok (.function "g" ["a"] (.number 1)) 6 := by
  have h := (C2_function_definition_reinterpretation).2.1
    [Token.withSpan (.identifier "g") 1 1 0, Token.withSpan .lparen 1 2 1,
     Token.withSpan (.identifier "a") 1 3 2, Token.withSpan .rparen 1 4 3,
     Token.withSpan .equal 1 5 4, Token.withSpan (.number 1) 1 6 5,
     Token.withSpan .eof 1 7 6] 7 .lowest 4 "g" [.identifier "a"] ["a"]
    (Token.withSpan .equal 1 5 4) rfl rfl (by decide) rfl
  exact h.trans rfl

/-- C8 (counterexample): a call is parsed only when the surrounding
precedence is below `Product`, not whenever a call is permitted by the
ladder (`Prefix < Call`): at `Prefix` context inside unary minus, `-x(3)`
parses as `(-x) * 3`, not as `-(x(3))`. -/
theorem C8_call_precedence_counterexample :
    parseSource "-x(3)" = some (.parsed
      [.binary (.unary .minus (.identifier "x")) .star (.number 3)]) ∧
    Expr.binary (.unary .minus (.identifier "x")) .star (.number 3) ≠
      Expr.unary .minus (.call (.identifier "x") [.number 3]) :=
  ⟨rfl, fun h => Expr.noConfusion h⟩

/-- C8 (amended): an identifier immediately followed by `(` with no
intervening whitespace is parsed as a call exactly when the surrounding
precedence is **strictly below `Product`** — the guard is
`precedence < Product`, not "permits a Call" — with a comma-separated,
possibly-empty argument list terminated by `)`; at precedence `Product` or
higher the `(` is instead treated like implicit multiplication (or, after
whitespace, ends the expression).  A `(` reached in operand position opens
a grouped sub-expression parsed at `Lowest` that must be closed by a
matching `)` (an unterminated group raises an unexpected-end-of-input
error). -/
theorem C8_call_vs_grouping :
    (∀ (tokens : List SpannedToken) (fuel : Nat) (prec : Precedence) (pos : Nat)
        (name : String) (st : SpannedToken),
        tokens[pos]? = some st → st.value = .lparen →
        hasWhitespaceBefore tokens pos = false →
        prec.val < Precedence.product.val →
        exprLoop tokens (fuel + 1) prec (.identifier name) pos =
          match callFn tokens fuel (.identifier name) pos with
          | .ok newLeft p2 => exprLoop tokens fuel prec newLeft p2
          | .err e p2 => .err e p2
          | .out => .out) ∧
    (∀ (tokens : List SpannedToken) (fuel : Nat) (prec : Precedence) (pos : Nat)
        (name : String) (st : SpannedToken),
        tokens[pos]? = some st → st.value = .lparen →
        hasWhitespaceBefore tokens pos = false →
        Precedence.product.val ≤ prec.val →
        exprLoop tokens (fuel + 1) prec (.identifier name) pos = .ok (.identifier name) pos) ∧
    (∀ (tokens : List SpannedToken) (fuel : Nat) (pos : Nat) (st : SpannedToken),
        tokens[pos]? = some st → st.value = .lparen →
        atom tokens (fuel + 1) pos =
          match expression tokens fuel .lowest (pos + 1) with
          | .ok e p2 =>
              (match expectTok tokens .rparen p2 with
               | .ok _ p3 => .ok e p3
               | .err er p3 => .err er p3
               | .out => .out)
          | .err e p2 => .err e p2
          | .out => .out) ∧
    parseSource "max(1, x, 3)" = some (.parsed
      [.call (.identifier "max") [.number 1, .identifier "x", .number 3]]) ∧
    parseSource "foo()" = some (.parsed [.call (.identifier "foo") []]) ∧
    parseSource "(1 + 2" = some (.parseErr [.unexpectedEof ")" 1 7 6]) := by
  refine ⟨?_, ?_, ?_, rfl, rfl, rfl⟩
  · intro tokens fuel prec pos name st hst hv hwsb hp
    have hne : st.value ≠ Token.whitespace := by rw [hv]; decide
    have hws : wsSkip tokens pos = pos := wsSkip_eq_self hst hne
    have hcur : currentTok tokens pos = some Token.lparen := by
      simp [currentTok, hst, hv]
    simp only [exprLoop, hws, hcur, hwsb, decide_eq_true hp, Bool.not_false,
      Bool.and_true, Bool.true_and, if_true]
  · intro tokens fuel prec pos name st hst hv hwsb hp
    have hne : st.value ≠ Token.whitespace := by rw [hv]; decide
    have hws : wsSkip tokens pos = pos := wsSkip_eq_self hst hne
    have hcur : currentTok tokens pos = some Token.lparen := by
      simp [currentTok, hst, hv]
    simp only [exprLoop, hws, hcur, hwsb, decide_eq_false (Nat.not_lt.mpr hp),
      Bool.not_false, Bool.and_true, Bool.true_and, Bool.and_false, if_false,
      Bool.false_eq_true, if_true]
    rw [if_pos hp]
  · intro tokens fuel pos st hst hv
    have hne : st.value ≠ Token.whitespace := by rw [hv]; decide
    have hws : wsSkip tokens pos = pos := wsSkip_eq_self hst hne
    have hcur : currentTok tokens pos = some Token.lparen := by
      simp [currentTok, hst, hv]
    simp only [atom, hws, hcur]

/-- C8 (witness): the call step on the tokens of `"foo()"` with the cursor
on the `(`. -/
theorem C8_call_vs_grouping_witness :
    exprLoop [Token.withSpan (.identifier "foo") 1 1 0, Token.withSpan .lparen 1 4 3,
        Token.withSpan .rparen 1 5 4, Token.withSpan .eof 1 6 5] 7 .lowest
        (.identifier "foo") 1 =
      .ok (.call (.identifier "foo") []) 3 := by
  have h := (C8_call_vs_grouping).1
    [Token.withSpan (.identifier "foo") 1 1 0, Token.withSpan .lparen 1 4 3,
     Token.withSpan .rparen 1 5 4, Token.withSpan .eof 1 6 5] 6 .lowest 1 "foo"
    (Token.withSpan .lparen 1 4 3) rfl rfl rfl (by decide)
  exact h.trans rfl

/-- C4 (counterexample): two adjacent identifier tokens with no intervening
`Whitespace` token are **not** treated as an implied `*` —
`is_implicit_multiplication` accepts a trailing identifier only after a
number or `)`.  Such adjacency arises from real source because comments are
elided without emitting any token: `"x/*c*/y"` lexes to adjacent
`Identifier` tokens and parses as two separate statements, not as the
`Binary(*, x, y)` the claim requires. -/
theorem C4_implicit_mul_counterexample :
    parseSource "x/*c*/y" = some (.parsed [.identifier "x", .identifier "y"]) ∧
    ([Expr.identifier "x", Expr.identifier "y"] : List Expr) ≠
      [.binary (.identifier "x") .star (.identifier "y")] :=
  ⟨rfl, by simp⟩

/-- C4 (amended): with no intervening `Whitespace` token, an implied `*` is
inserted exactly for a trailing identifier after a number or a closing `)`,
and for a trailing number after a closing `)` or an identifier — the
identifier-identifier and number-number adjacencies, which real source can
produce because comments are elided without emitting a token, are **not**
implicit multiplication and parse as separate statements.  A preceding
`Whitespace` token always suppresses it.  When the rule fires the parser
recurses at `Product` precedence and builds a `Binary` node with `*`.
`"2x"` parses as `Binary(*, 2, x)`, `"(x+1)(y+2)"` as the product of the
two groups, `"x.5"` as `Binary(*, x, 0.5)`, `"2 x"` as two statements, and
`"1/*c*/2"` (adjacent `Number` tokens) as two statements. -/
theorem C4_implicit_multiplication :
    (∀ (tokens : List SpannedToken) (pos : Nat) (t : Token),
        hasWhitespaceBefore tokens pos = true → isImplicitMul tokens pos t = false) ∧
    (∀ (tokens : List SpannedToken) (pos : Nat) (name : String) (n : F64),
        hasWhitespaceBefore tokens pos = false →
        previousTok tokens pos = some (.number n) →
        isImplicitMul tokens pos (.identifier name) = true) ∧
    (∀ (tokens : List SpannedToken) (pos : Nat) (name : String),
        hasWhitespaceBefore tokens pos = false →
        previousTok tokens pos = some .rparen →
        isImplicitMul tokens pos (.identifier name) = true) ∧
    (∀ (tokens : List SpannedToken) (pos : Nat) (n : F64),
        hasWhitespaceBefore tokens pos = false →
        previousTok tokens pos = some .rparen →
        isImplicitMul tokens pos (.number n) = true) ∧
    (∀ (tokens : List SpannedToken) (pos : Nat) (n : F64) (m : String),
        hasWhitespaceBefore tokens pos = false →
        previousTok tokens pos = some (.identifier m) →
        isImplicitMul tokens pos (.number n) = true) ∧
    (∀ (tokens : List SpannedToken) (pos : Nat) (name m : String),
        previousTok tokens pos = some (.identifier m) →
        isImplicitMul tokens pos (.identifier name) = false) ∧
    (∀ (tokens : List SpannedToken) (pos : Nat) (n m : F64),
        previousTok tokens pos = some (.number m) →
        isImplicitMul tokens pos (.number n) = false) ∧
    (∀ (tokens : List SpannedToken) (fuel : Nat) (prec : Precedence) (left : Expr)
        (pos : Nat) (t : Token) (st : SpannedToken),
        tokens[pos]? = some st → st.value = t →
        isImplicitMul tokens pos t = true →
        prec.val ≤ Precedence.product.val →
        exprLoop tokens (fuel + 1) prec left pos =
          match expression tokens fuel .product pos with
          | .ok right p2 => exprLoop tokens fuel prec (.binary left .star right) p2
          | .err e p2 => .err e p2
          | .out => .out) ∧
    parseSource "2x" = some (.parsed
      [.binary (.number 2) .star (.identifier "x")]) ∧
    parseSource "(x+1)(y+2)" = some (.parsed
      [.binary (.binary (.identifier "x") .plus (.number 1)) .star
        (.binary (.identifier "y") .plus (.number 2))]) ∧
    parseSource "x.5" = some (.parsed
      [.binary (.identifier "x") .star (.number ⟨5, 10⟩)]) ∧
    parseSource "2 x" = some (.parsed [.number 2, .identifier "x"]) ∧
    parseSource "1/*c*/2" = some (.parsed [.number 1, .number 2]) := by
  refine ⟨?_, ?_, ?_, ?_, ?_, ?_, ?_, ?_, rfl, rfl, rfl, rfl, rfl⟩
  · intro tokens pos t h
    simp [isImplicitMul, h]
  · intro tokens pos name n h1 h2
    simp [isImplicitMul, h1, h2]
  · intro tokens pos name h1 h2
    simp [isImplicitMul, h1, h2]
  · intro tokens pos n h1 h2
    simp [isImplicitMul, h1, h2]
  · intro tokens pos n m h1 h2
    simp [isImplicitMul, h1, h2]
  · intro tokens pos name m h2
    simp [isImplicitMul, h2]
  · intro tokens pos n m h2
    simp [isImplicitMul, h2]
  · intro tokens fuel prec left pos t st hst hv himp hp
    cases t
    case identifier name =>
        have hne : st.value ≠ Token.whitespace := by rw [hv]; simp
        have hws : wsSkip tokens pos = pos := wsSkip_eq_self hst hne
        have hcur : currentTok tokens pos = some (Token.identifier name) := by
          simp [currentTok, hst, hv]
        simp only [exprLoop, hws, hcur, himp, if_true]
        rw [if_neg (Nat.not_lt.mpr hp)]
    case number n =>
        have hne : st.value ≠ Token.whitespace := by rw [hv]; simp
        have hws : wsSkip tokens pos = pos := wsSkip_eq_self hst hne
        have hcur : currentTok tokens pos = some (Token.number n) := by
          simp [currentTok, hst, hv]
        simp only [exprLoop, hws, hcur, himp, if_true]
        rw [if_neg (Nat.not_lt.mpr hp)]
    all_goals simp [isImplicitMul] at himp

/-- C4 (witness): the implicit-multiplication step on the tokens of `"2x"`
with the cursor on `x`. -/
theorem C4_implicit_multiplication_witness :
    exprLoop [Token.withSpan (.number 2) 1 1 0, Token.withSpan (.identifier "x") 1 2 1,
        Token.withSpan .eof 1 3 2] 5 .lowest (.number 2) 1 =
      .ok (.binary (.number 2) .star (.identifier "x")) 2 := by
  have h := (C4_implicit_multiplication).2.2.2.2.2.2.2.1
    [Token.withSpan (.number 2) 1 1 0, Token.withSpan (.identifier "x") 1 2 1,
     Token.withSpan .eof 1 3 2] 4 .lowest (.number 2) 1 (.identifier "x")
    (Token.withSpan (.identifier "x") 1 2 1) rfl rfl rfl (by decide)
  exact h.trans rfl
